import Mathlib

/-!
Shallow embedding of the ETH-NFT-Maker repository.

Part 1 models the `Web3Mint` Solidity contract
(`contract/contracts/Web3Mint.sol`): state variables, the payable mint
entry points `makeAnEpicNFT` / `mintIpfsNFT` / `mintIpfsNFTWithMetadata`,
the owner-only entry points, and the view functions.  Strings are
`List Char`, addresses and wei amounts are `Nat`, Solidity mappings are
association lists, and a reverting call is an `Except.error` carrying the
contract's custom error.

Part 2 models the client IPFS service (`packages/client/src/utils/ipfsService.js`):
CID validation, gateway URL generation, the gateway probing loop, the mock
upload fallback, and the Pinata upload path.

Part 3 models the minting hook
(`packages/client/src/components/NftUploader/hooks/useNftMinting.js`):
the entry check of `mintNFT` and the token-id resolution after a confirmed
transaction.
-/

namespace NFTMaker

/-- Maximum number of tokens the contract can mint (`MAX_SUPPLY = 10000`). -/
def MAX_SUPPLY : Nat := 10000

/-- Initial mint price in wei (`0.001 ether`). -/
def initialMintPrice : Nat := 1000000000000000

/-- The `NFTInfo` struct stored per token. -/
structure NFTInfo where
  name : List Char
  description : List Char
  imageURI : List Char
  timestamp : Nat
  minter : Nat
deriving Repr, DecidableEq

/-- The zero-initialized `NFTInfo` struct a Solidity mapping returns for an
unset key. -/
def zeroNFTInfo : NFTInfo :=
  { name := [], description := [], imageURI := [], timestamp := 0, minter := 0 }

/-- State of the deployed `Web3Mint` contract.  `owners` is the ERC721
ownership table, `tokenURIs` the `ERC721URIStorage` table, `infos` the
`nftInfo` mapping, `balance` the contract's ETH balance in wei. -/
structure ContractState where
  tokenIdCounter : Nat
  mintPrice : Nat
  mintingEnabled : Bool
  contractOwner : Nat
  owners : List (Nat × Nat)
  tokenURIs : List (Nat × List Char)
  infos : List (Nat × NFTInfo)
  balance : Nat
deriving Repr, DecidableEq

/-- State right after the constructor ran: the counter starts at 1, minting is
enabled, the price is 0.001 ether, and the deployer owns the contract. -/
def initialState (deployer : Nat) : ContractState :=
  { tokenIdCounter := 1
    mintPrice := initialMintPrice
    mintingEnabled := true
    contractOwner := deployer
    owners := []
    tokenURIs := []
    infos := []
    balance := 0 }

/-- Custom errors of the contract plus the OpenZeppelin errors its calls can
raise. -/
inductive ContractError where
  | MaxSupplyExceeded
  | MintingDisabled
  | InsufficientPayment
  | InvalidTokenURI
  | InvalidIPFSHash
  | EmptyName
  | EmptyDescription
  | ERC721InvalidReceiver
  | ERC721InvalidSender
  | OwnableUnauthorizedAccount
  | NoFundsToWithdraw
deriving Repr, DecidableEq

/-- OpenZeppelin `_safeMint`: reverts when minting to the zero address or when
the token already exists, otherwise records the new owner. -/
def safeMint (s : ContractState) (recipient tokenId : Nat) : Except ContractError ContractState :=
  if recipient = 0 then .error .ERC721InvalidReceiver
  else if (s.owners.lookup tokenId).isSome then .error .ERC721InvalidSender
  else .ok { s with owners := (tokenId, recipient) :: s.owners }

/-- `ERC721URIStorage._setTokenURI`. -/
def setTokenURI (s : ContractState) (tokenId : Nat) (uri : List Char) : ContractState :=
  { s with tokenURIs := (tokenId, uri) :: s.tokenURIs }

/-- The base64 alphabet used by the on-chain `Base64` library and by the
browser `btoa`. -/
def base64Alphabet : List Char :=
  "ABCDEFGHIJKLMNOPQRSTUVWXYZabcdefghijklmnopqrstuvwxyz0123456789+/".data

/-- The base64 character for a 6-bit value. -/
def base64Digit (n : Nat) : Char := base64Alphabet.getD n 'A'

/-- Standard base64 encoding of a byte sequence, with `=` padding, as
implemented by the on-chain `Base64.encode` and the browser `btoa`. -/
def base64Encode : List Nat → List Char
  | [] => []
  | [b1] => [base64Digit (b1 / 4), base64Digit (b1 % 4 * 16), '=', '=']
  | [b1, b2] =>
      [base64Digit (b1 / 4), base64Digit (b1 % 4 * 16 + b2 / 16),
       base64Digit (b2 % 16 * 4), '=']
  | b1 :: b2 :: b3 :: rest =>
      base64Digit (b1 / 4) :: base64Digit (b1 % 4 * 16 + b2 / 16) ::
      base64Digit (b2 % 16 * 4 + b3 / 64) :: base64Digit (b3 % 64) ::
      base64Encode rest

/-- `Base64.encodeJSON`: base64 data URI for a JSON string. -/
def encodeJSON (json : List Char) : List Char :=
  "data:application/json;base64,".data ++ base64Encode (json.map Char.toNat)

/-- Decimal digit characters of a positive number, most significant first. -/
def decimalDigits (fuel n : Nat) : List Char :=
  match fuel with
  | 0 => []
  | fuel + 1 =>
      if n = 0 then []
      else decimalDigits fuel (n / 10) ++ [Char.ofNat (48 + n % 10)]

/-- `_uint256ToString`: decimal string of a number, `"0"` for zero. -/
def uint256ToString (n : Nat) : List Char :=
  if n = 0 then ['0'] else decimalDigits (n + 1) n

/-- Hexadecimal digit characters used by `_addressToString`. -/
def hexDigit (n : Nat) : Char := "0123456789abcdef".data.getD n '0'

/-- `_addressToString`: `0x` followed by the 40 hex digits of the address. -/
def addressToString (addr : Nat) : List Char :=
  '0' :: 'x' :: (List.range 40).map (fun i => hexDigit (addr / 16 ^ (39 - i) % 16))

/-- Read of the public `nftInfo` mapping (zero struct when unset). -/
def nftInfoOf (s : ContractState) (tokenId : Nat) : NFTInfo :=
  (s.infos.lookup tokenId).getD zeroNFTInfo

/-- `_generateMetadataURI`: builds the JSON metadata of a token and base64
encodes it as a data URI. -/
def generateMetadataURI (s : ContractState) (tokenId : Nat) : List Char :=
  let info := nftInfoOf s tokenId
  let json :=
    "\x7b\"name\": \"".data ++ info.name ++ "\",".data ++
    "\"description\": \"".data ++ info.description ++ "\",".data ++
    "\"image\": \"".data ++ info.imageURI ++ "\",".data ++
    "\"attributes\": [".data ++
    "\x7b\"trait_type\": \"Minter\", \"value\": \"".data ++
      addressToString info.minter ++ "\"\x7d,".data ++
    "\x7b\"trait_type\": \"Mint Timestamp\", \"value\": ".data ++
      uint256ToString info.timestamp ++ "\x7d,".data ++
    "\x7b\"trait_type\": \"Token ID\", \"value\": ".data ++
      uint256ToString tokenId ++ "\x7d".data ++
    "]\x7d".data
  encodeJSON json

/-- The HTTPS gateway base the contract prepends to an IPFS hash. -/
def onChainGatewayBase : List Char := "https://ipfs.io/ipfs/".data

/-- `makeAnEpicNFT(metadataURI)`, payable.  `sender` is `msg.sender`,
`msgValue` is `msg.value`.  Returns the updated state and the minted token
id, or the revert error. -/
def makeAnEpicNFT (s : ContractState) (sender msgValue : Nat) (metadataURI : List Char) :
    Except ContractError (ContractState × Nat) :=
  if s.mintingEnabled = false then .error .MintingDisabled
  else if MAX_SUPPLY < s.tokenIdCounter then .error .MaxSupplyExceeded
  else if msgValue < s.mintPrice then .error .InsufficientPayment
  else if metadataURI.length = 0 then .error .InvalidTokenURI
  else
    let tokenId := s.tokenIdCounter
    match safeMint s sender tokenId with
    | .error e => .error e
    | .ok s1 =>
        let s2 := setTokenURI s1 tokenId metadataURI
        .ok ({ s2 with tokenIdCounter := s2.tokenIdCounter + 1
                       balance := s2.balance + msgValue }, tokenId)

/-- `mintIpfsNFT(name, description, ipfsHash)`, payable.  `blockTimestamp` is
`block.timestamp` at the call. -/
def mintIpfsNFT (s : ContractState) (sender msgValue blockTimestamp : Nat)
    (name description ipfsHash : List Char) : Except ContractError (ContractState × Nat) :=
  if s.mintingEnabled = false then .error .MintingDisabled
  else if MAX_SUPPLY < s.tokenIdCounter then .error .MaxSupplyExceeded
  else if msgValue < s.mintPrice then .error .InsufficientPayment
  else if name.length = 0 then .error .EmptyName
  else if description.length = 0 then .error .EmptyDescription
  else if ipfsHash.length = 0 then .error .InvalidIPFSHash
  else
    let tokenId := s.tokenIdCounter
    let imageURI := onChainGatewayBase ++ ipfsHash
    let info : NFTInfo :=
      { name := name, description := description, imageURI := imageURI
        timestamp := blockTimestamp, minter := sender }
    let s1 := { s with infos := (tokenId, info) :: s.infos }
    let metadataURI := generateMetadataURI s1 tokenId
    match safeMint s1 sender tokenId with
    | .error e => .error e
    | .ok s2 =>
        let s3 := setTokenURI s2 tokenId metadataURI
        .ok ({ s3 with tokenIdCounter := s3.tokenIdCounter + 1
                       balance := s3.balance + msgValue }, tokenId)

/-- `mintIpfsNFTWithMetadata(name, description, ipfsHash, metadataURI)`,
payable. -/
def mintIpfsNFTWithMetadata (s : ContractState) (sender msgValue blockTimestamp : Nat)
    (name description ipfsHash metadataURI : List Char) :
    Except ContractError (ContractState × Nat) :=
  if s.mintingEnabled = false then .error .MintingDisabled
  else if MAX_SUPPLY < s.tokenIdCounter then .error .MaxSupplyExceeded
  else if msgValue < s.mintPrice then .error .InsufficientPayment
  else if name.length = 0 then .error .EmptyName
  else if description.length = 0 then .error .EmptyDescription
  else if ipfsHash.length = 0 then .error .InvalidIPFSHash
  else if metadataURI.length = 0 then .error .InvalidTokenURI
  else
    let tokenId := s.tokenIdCounter
    let imageURI := onChainGatewayBase ++ ipfsHash
    let info : NFTInfo :=
      { name := name, description := description, imageURI := imageURI
        timestamp := blockTimestamp, minter := sender }
    let s1 := { s with infos := (tokenId, info) :: s.infos }
    match safeMint s1 sender tokenId with
    | .error e => .error e
    | .ok s2 =>
        let s3 := setTokenURI s2 tokenId metadataURI
        .ok ({ s3 with tokenIdCounter := s3.tokenIdCounter + 1
                       balance := s3.balance + msgValue }, tokenId)

/-- `ownerMint(to, metadataURI)`: owner-only free mint. -/
def ownerMint (s : ContractState) (sender recipient : Nat) (metadataURI : List Char) :
    Except ContractError (ContractState × Nat) :=
  if sender ≠ s.contractOwner then .error .OwnableUnauthorizedAccount
  else if MAX_SUPPLY < s.tokenIdCounter then .error .MaxSupplyExceeded
  else if metadataURI.length = 0 then .error .InvalidTokenURI
  else
    let tokenId := s.tokenIdCounter
    match safeMint s recipient tokenId with
    | .error e => .error e
    | .ok s1 =>
        let s2 := setTokenURI s1 tokenId metadataURI
        .ok ({ s2 with tokenIdCounter := s2.tokenIdCounter + 1 }, tokenId)

/-- `ownerMintIpfs(to, name, description, ipfsHash)`: owner-only free IPFS
mint (the source checks only `name` and `ipfsHash` for emptiness). -/
def ownerMintIpfs (s : ContractState) (sender recipient blockTimestamp : Nat)
    (name description ipfsHash : List Char) : Except ContractError (ContractState × Nat) :=
  if sender ≠ s.contractOwner then .error .OwnableUnauthorizedAccount
  else if MAX_SUPPLY < s.tokenIdCounter then .error .MaxSupplyExceeded
  else if name.length = 0 then .error .EmptyName
  else if ipfsHash.length = 0 then .error .InvalidIPFSHash
  else
    let tokenId := s.tokenIdCounter
    let imageURI := onChainGatewayBase ++ ipfsHash
    let info : NFTInfo :=
      { name := name, description := description, imageURI := imageURI
        timestamp := blockTimestamp, minter := recipient }
    let s1 := { s with infos := (tokenId, info) :: s.infos }
    let metadataURI := generateMetadataURI s1 tokenId
    match safeMint s1 recipient tokenId with
    | .error e => .error e
    | .ok s2 =>
        let s3 := setTokenURI s2 tokenId metadataURI
        .ok ({ s3 with tokenIdCounter := s3.tokenIdCounter + 1 }, tokenId)

/-- `toggleMinting(enabled)`: owner-only switch. -/
def toggleMinting (s : ContractState) (sender : Nat) (enabled : Bool) :
    Except ContractError ContractState :=
  if sender ≠ s.contractOwner then .error .OwnableUnauthorizedAccount
  else .ok { s with mintingEnabled := enabled }

/-- `updateMintPrice(newPrice)`: owner-only fee update. -/
def updateMintPrice (s : ContractState) (sender newPrice : Nat) :
    Except ContractError ContractState :=
  if sender ≠ s.contractOwner then .error .OwnableUnauthorizedAccount
  else .ok { s with mintPrice := newPrice }

/-- `withdraw()`: owner-only, requires a positive balance, transfers the whole
balance to the owner. -/
def withdraw (s : ContractState) (sender : Nat) : Except ContractError ContractState :=
  if sender ≠ s.contractOwner then .error .OwnableUnauthorizedAccount
  else if s.balance = 0 then .error .NoFundsToWithdraw
  else .ok { s with balance := 0 }

/-- `getNFTInfo(tokenId)` view. -/
def getNFTInfo (s : ContractState) (tokenId : Nat) : NFTInfo := nftInfoOf s tokenId

/-- `getCurrentTokenId()` view. -/
def getCurrentTokenId (s : ContractState) : Nat := s.tokenIdCounter

/-- `totalSupply()` view: `_tokenIdCounter - 1`. -/
def totalSupply (s : ContractState) : Nat := s.tokenIdCounter - 1

/-- `getContractBalance()` view. -/
def getContractBalance (s : ContractState) : Nat := s.balance

/-- `ownerOf(tokenId)`: `none` models the ERC721 revert for a nonexistent
token. -/
def ownerOf (s : ContractState) (tokenId : Nat) : Option Nat := s.owners.lookup tokenId

/-- EVM revert semantics of an external mint call: an error rolls the state
back, a success commits the new state. -/
def mintCallState (r : Except ContractError (ContractState × Nat)) (s : ContractState) :
    ContractState :=
  match r with
  | .ok (s', _) => s'
  | .error _ => s

/-- One state-changing external call to the contract. -/
inductive Step : ContractState → ContractState → Prop where
  | epicMint (s s' : ContractState) (sender v : Nat) (uri : List Char) (tid : Nat)
      (h : makeAnEpicNFT s sender v uri = .ok (s', tid)) : Step s s'
  | ipfsMint (s s' : ContractState) (sender v ts : Nat) (n d ipfsHash : List Char) (tid : Nat)
      (h : mintIpfsNFT s sender v ts n d ipfsHash = .ok (s', tid)) : Step s s'
  | ipfsMetaMint (s s' : ContractState) (sender v ts : Nat)
      (n d ipfsHash uri : List Char) (tid : Nat)
      (h : mintIpfsNFTWithMetadata s sender v ts n d ipfsHash uri = .ok (s', tid)) : Step s s'
  | ownerMintStep (s s' : ContractState) (sender recipient : Nat) (uri : List Char) (tid : Nat)
      (h : ownerMint s sender recipient uri = .ok (s', tid)) : Step s s'
  | ownerMintIpfsStep (s s' : ContractState) (sender recipient ts : Nat)
      (n d ipfsHash : List Char) (tid : Nat)
      (h : ownerMintIpfs s sender recipient ts n d ipfsHash = .ok (s', tid)) : Step s s'
  | toggleStep (s s' : ContractState) (sender : Nat) (b : Bool)
      (h : toggleMinting s sender b = .ok s') : Step s s'
  | priceStep (s s' : ContractState) (sender p : Nat)
      (h : updateMintPrice s sender p = .ok s') : Step s s'
  | withdrawStep (s s' : ContractState) (sender : Nat)
      (h : withdraw s sender = .ok s') : Step s s'

/-- Contract states reachable from deployment by external calls. -/
inductive Reachable : ContractState → Prop where
  | deployed (deployer : Nat) : Reachable (initialState deployer)
  | next {s s' : ContractState} : Reachable s → Step s s' → Reachable s'

/-- Characters of the base58 alphabet `[1-9A-HJ-NP-Za-km-z]` used by the
CIDv0 regex in `isValidCID`. -/
def isBase58Char (c : Char) : Bool :=
  ('1' ≤ c && c ≤ '9') || ('A' ≤ c && c ≤ 'H') || ('J' ≤ c && c ≤ 'N') ||
  ('P' ≤ c && c ≤ 'Z') || ('a' ≤ c && c ≤ 'k') || ('m' ≤ c && c ≤ 'z')

/-- Characters of the class `[a-z0-9]` used by the CIDv1 regex in
`isValidCID`. -/
def isLower36Char (c : Char) : Bool :=
  ('a' ≤ c && c ≤ 'z') || ('0' ≤ c && c ≤ '9')

/-- The CIDv0 regex `^Qm[1-9A-HJ-NP-Za-km-z]{44}$`. -/
def cidv0Match : List Char → Bool
  | c1 :: c2 :: rest =>
      c1 == 'Q' && c2 == 'm' && rest.length == 44 && rest.all isBase58Char
  | _ => false

/-- The CIDv1 regex `^ba[a-z0-9]{56,}$`. -/
def cidv1Match : List Char → Bool
  | c1 :: c2 :: rest =>
      c1 == 'b' && c2 == 'a' && decide (56 ≤ rest.length) && rest.all isLower36Char
  | _ => false

/-- `isValidCID` from `ipfsService.js`: a string is accepted when it matches
the CIDv0 regex or the CIDv1 regex. -/
def isValidCID (cid : List Char) : Bool := cidv0Match cid || cidv1Match cid

/-- The `ETHERSCAN_COMPATIBLE_GATEWAYS` object: keys in insertion order with
their gateway base URLs. -/
def gatewayTable : List (List Char × List Char) :=
  [("w3s_link".data, "https://w3s.link/ipfs/".data),
   ("dweb".data, "https://dweb.link/ipfs/".data),
   ("gateway_pinata".data, "https://gateway.pinata.cloud/ipfs/".data),
   ("ipfs_io".data, "https://ipfs.io/ipfs/".data),
   ("cf_ipfs".data, "https://cf-ipfs.com/ipfs/".data),
   ("cloudflare_ipfs".data, "https://cloudflare-ipfs.com/ipfs/".data),
   ("nftstorage".data, "https://nftstorage.link/ipfs/".data),
   ("web3storage".data, "https://w3s.link/ipfs/".data)]

/-- `Object.keys(ETHERSCAN_COMPATIBLE_GATEWAYS)`: the priority order the
probing loop walks. -/
def gatewayKeys : List (List Char) := gatewayTable.map Prod.fst

/-- `generateEtherscanCompatibleUrl(cid, gateway)`: base URL of the named
gateway (falling back to `w3s_link` for an unknown key) concatenated with
the CID. -/
def generateEtherscanCompatibleUrl (cid gateway : List Char) : List Char :=
  ((gatewayTable.lookup gateway).getD "https://w3s.link/ipfs/".data) ++ cid

/-- Outcome of one `fetch` HEAD probe: an HTTP response with a status code,
or a thrown error (network failure or the 5-second timeout abort). -/
inductive ProbeResult where
  | status (code : Nat)
  | netError
deriving Repr, DecidableEq

/-- `response.ok`: the status code is in the 2xx range. -/
def responseOk : ProbeResult → Bool
  | .status code => 200 ≤ code && code ≤ 299
  | .netError => false

/-- The `for` loop of `findAccessibleGateway` over a remaining key list:
return the first URL whose probe is ok, else the default `ipfs_io` URL. -/
def findGatewayLoop (probe : List Char → ProbeResult) (cid : List Char) :
    List (List Char) → List Char
  | [] => generateEtherscanCompatibleUrl cid "ipfs_io".data
  | k :: ks =>
      let url := generateEtherscanCompatibleUrl cid k
      if responseOk (probe url) then url else findGatewayLoop probe cid ks

/-- `findAccessibleGateway(cid)`: probe the gateways in priority order; the
`probe` oracle gives each URL's fetch outcome. -/
def findAccessibleGateway (probe : List Char → ProbeResult) (cid : List Char) : List Char :=
  findGatewayLoop probe cid gatewayKeys

/-- The URLs actually fetched by the loop of `findAccessibleGateway`, in
order: every candidate up to and including the first accessible one. -/
def probeTraceLoop (probe : List Char → ProbeResult) (cid : List Char) :
    List (List Char) → List (List Char)
  | [] => []
  | k :: ks =>
      let url := generateEtherscanCompatibleUrl cid k
      if responseOk (probe url) then [url] else url :: probeTraceLoop probe cid ks

/-- The URLs actually fetched by `findAccessibleGateway(cid)`. -/
def gatewayProbeTrace (probe : List Char → ProbeResult) (cid : List Char) : List (List Char) :=
  probeTraceLoop probe cid gatewayKeys

/-- Result object of a successful upload (`{cid, httpsUrl, ipfsUri}`). -/
structure UploadResult where
  cid : List Char
  httpsUrl : List Char
  ipfsUri : List Char
deriving Repr, DecidableEq

/-- One run of `realUploadToIPFS` together with whether the Pinata upload
network request was issued during the run. -/
structure UploadAttempt where
  result : Except (List Char) UploadResult
  pinCallMade : Bool
deriving Repr

/-- `realUploadToIPFS(file)`: when the Pinata client is available, issue the
pin request (`pinOutcome` is the service's reply: `none` for a failed
request, `some hash` for a returned `IpfsHash`), and only then validate the
returned CID; `httpsUrl` is the primary `ipfs_io` URL. -/
def realUploadToIPFS (clientAvailable : Bool) (pinOutcome : Option (List Char)) :
    UploadAttempt :=
  if clientAvailable = false then
    { result := .error "Pinata client not available".data, pinCallMade := false }
  else
    match pinOutcome with
    | none => { result := .error "IPFS upload failed".data, pinCallMade := true }
    | some ipfsHash =>
        if isValidCID ipfsHash = false then
          { result := .error ("Invalid CID format: ".data ++ ipfsHash), pinCallMade := true }
        else
          { result := .ok { cid := ipfsHash
                            httpsUrl := generateEtherscanCompatibleUrl ipfsHash "ipfs_io".data
                            ipfsUri := "ipfs://".data ++ ipfsHash }
            pinCallMade := true }

/-- Alphanumeric characters, as kept by the `replace(/[^a-zA-Z0-9]/g, ...)`
in the mock upload. -/
def alnumChar (c : Char) : Bool :=
  ('a' ≤ c && c ≤ 'z') || ('A' ≤ c && c ≤ 'Z') || ('0' ≤ c && c ≤ '9')

/-- The browser `btoa` on an ASCII string: base64 of its character codes. -/
def btoa (s : List Char) : List Char := base64Encode (s.map Char.toNat)

/-- The synthetic CID of `mockUploadToIPFS`:
`'Qm' + btoa(file.name + Date.now()).replace(/[^a-zA-Z0-9]/g, '').slice(0, 44)`. -/
def mockCID (fileName : List Char) (now : Nat) : List Char :=
  'Q' :: 'm' :: ((btoa (fileName ++ uint256ToString now)).filter alnumChar).take 44

/-- A field value of a JavaScript result object. -/
inductive JsField where
  | strVal (s : List Char)
  | boolVal (b : Bool)
deriving Repr, DecidableEq

/-- `mockUploadToIPFS(file)`: the fallback result object, with exactly the
fields the source constructs. -/
def mockUploadToIPFS (fileName : List Char) (now : Nat) : List (List Char × JsField) :=
  let cid := mockCID fileName now
  [("cid".data, .strVal cid),
   ("httpsUrl".data, .strVal (generateEtherscanCompatibleUrl cid "w3s_link".data)),
   ("ipfsUri".data, .strVal ("ipfs://".data ++ cid))]

/-- The `uploadToIPFS` wrapper returned by `getIPFSUploader` when Pinata is
configured: on any error of the real upload it falls back to
`mockUploadToIPFS`. -/
def uploadToIPFSFallback (realOutcome : Except (List Char) (List (List Char × JsField)))
    (fileName : List Char) (now : Nat) : List (List Char × JsField) :=
  match realOutcome with
  | .ok r => r
  | .error _ => mockUploadToIPFS fileName now

/-- The state of `useNftMinting` that the entry of `mintNFT` touches. -/
structure HookState where
  uploading : Bool
  errorMsg : List Char
  successMsg : List Char
deriving Repr, DecidableEq

/-- What the entry of `mintNFT` does: throw on missing arguments, or proceed
into the pipeline with the given state. -/
inductive MintEntryOutcome where
  | rejectedMissingArgs
  | started (s : HookState)
deriving Repr, DecidableEq

/-- The entry of `mintNFT(file, currentAccount)`: reject when file or account
is missing, otherwise set `uploading`, clear messages and start the
pipeline. -/
def mintNFTEntry (s : HookState) (fileGiven accountGiven : Bool) : MintEntryOutcome :=
  if fileGiven = false || accountGiven = false then .rejectedMissingArgs
  else .started { s with uploading := true, errorMsg := [], successMsg := [] }

/-- A receipt log entry as `contract.interface.parseLog` sees it: a parsed
`Transfer` event carrying a token id, some other parsed event, or a log
whose parsing throws. -/
inductive ParsedLog where
  | transferEvent (tokenId : Nat)
  | otherEvent
  | parseFailure
deriving Repr, DecidableEq

/-- The predicate of the `receipt.logs.find` call: the log parses to an event
named `Transfer`. -/
def isTransferLog : ParsedLog → Bool
  | .transferEvent _ => true
  | _ => false

/-- The candidate token id the hook resolves: the id of the first `Transfer`
event in the receipt's logs, else `getCurrentTokenId() - 1`. -/
def resolvedCandidate (logs : List ParsedLog) (currentId : Nat) : Nat :=
  match logs.find? isTransferLog with
  | some (.transferEvent t) => t
  | _ => currentId - 1

/-- Token-id resolution of `mintNFT` after a confirmed transaction: resolve
the candidate id, then verify it with `ownerOf` (`owner` is the chain read;
`none` models the revert for a nonexistent token), failing hard when the
verification read fails. -/
def resolveTokenId (logs : List ParsedLog) (currentId : Nat) (owner : Nat → Option Nat) :
    Except (List Char) Nat :=
  match owner (resolvedCandidate logs currentId) with
  | some _ => .ok (resolvedCandidate logs currentId)
  | none => .error "Token ID not found".data

/-- The legacy content-identifier shape as the spec words it: the fixed
46-character form, a `Qm` prefix followed by exactly 44 base58 characters. -/
def LegacyShape (cid : List Char) : Prop :=
  cid.length = 46 ∧
  ∃ rest, cid = 'Q' :: 'm' :: rest ∧ rest.length = 44 ∧ ∀ c ∈ rest, isBase58Char c = true

/-- The modern content-identifier shape as the spec words it: total length at
least 58, a `ba` prefix followed by at least 56 lowercase base36
characters. -/
def ModernShape (cid : List Char) : Prop :=
  58 ≤ cid.length ∧
  ∃ rest, cid = 'b' :: 'a' :: rest ∧ 56 ≤ rest.length ∧ ∀ c ∈ rest, isLower36Char c = true

/-- Invariant of reachable contract states: the counter starts at 1 and every
owned token id is 1-based and below the counter. -/
def CounterInvariant (s : ContractState) : Prop :=
  1 ≤ s.tokenIdCounter ∧
  ∀ tid o, s.owners.lookup tid = some o → 1 ≤ tid ∧ tid < s.tokenIdCounter

/-- A concrete successful `mintIpfsNFT` run used to instantiate theorems. -/
def sampleIpfsMint : ContractState × Nat :=
  (mintIpfsNFT (initialState 1) 5 initialMintPrice 99
    "A".data "B".data "QmX".data).toOption.getD (initialState 1, 0)

/-- A concrete successful over-paying `mintIpfsNFT` run used to instantiate
theorems. -/
def sampleOverpaidMint : ContractState × Nat :=
  (mintIpfsNFT (initialState 1) 5 (initialMintPrice + 7) 99
    "A".data "B".data "QmX".data).toOption.getD (initialState 1, 0)

/-! Theorems. -/

theorem cidv0Match_iff (cid : List Char) : cidv0Match cid = true ↔ LegacyShape cid := by
  cases cid with
  | nil => simp [cidv0Match, LegacyShape]
  | cons c1 t =>
    cases t with
    | nil => simp [cidv0Match, LegacyShape]
    | cons c2 rest =>
      simp only [cidv0Match, Bool.and_eq_true, beq_iff_eq, List.all_eq_true, LegacyShape]
      constructor
      · rintro ⟨⟨⟨rfl, rfl⟩, hlen⟩, hall⟩
        exact ⟨by simp [hlen], rest, rfl, hlen, hall⟩
      · rintro ⟨-, r, heq, hlen, hall⟩
        obtain ⟨rfl, rfl, rfl⟩ : c1 = 'Q' ∧ c2 = 'm' ∧ rest = r := by
          injection heq with h1 h2
          injection h2 with h2 h3
          exact ⟨h1, h2, h3⟩
        exact ⟨⟨⟨rfl, rfl⟩, hlen⟩, hall⟩

theorem cidv1Match_iff (cid : List Char) : cidv1Match cid = true ↔ ModernShape cid := by
  cases cid with
  | nil => simp [cidv1Match, ModernShape]
  | cons c1 t =>
    cases t with
    | nil => simp [cidv1Match, ModernShape]
    | cons c2 rest =>
      simp only [cidv1Match, Bool.and_eq_true, beq_iff_eq, List.all_eq_true,
        decide_eq_true_eq, ModernShape]
      constructor
      · rintro ⟨⟨⟨rfl, rfl⟩, hlen⟩, hall⟩
        exact ⟨by simp; omega, rest, rfl, hlen, hall⟩
      · rintro ⟨-, r, heq, hlen, hall⟩
        obtain ⟨rfl, rfl, rfl⟩ : c1 = 'b' ∧ c2 = 'a' ∧ rest = r := by
          injection heq with h1 h2
          injection h2 with h2 h3
          exact ⟨h1, h2, h3⟩
        exact ⟨⟨⟨rfl, rfl⟩, hlen⟩, hall⟩

/-- C3: `isValidCID` accepts a string exactly when it has one of the two
canonical content-identifier shapes: the fixed 46-character legacy form
(`Qm` followed by exactly 44 base58 characters) or the variable modern form
(`ba` followed by at least 56 lowercase base36 characters, total length at
least 58); every other string is rejected. -/
theorem isValidCID_iff_canonical_shape (cid : List Char) :
    isValidCID cid = true ↔ LegacyShape cid ∨ ModernShape cid := by
  simp only [isValidCID, Bool.or_eq_true, cidv0Match_iff, cidv1Match_iff]

theorem findGatewayLoop_all_fail (probe : List Char → ProbeResult) (cid : List Char)
    (ks : List (List Char))
    (h : ∀ k ∈ ks, responseOk (probe (generateEtherscanCompatibleUrl cid k)) = false) :
    findGatewayLoop probe cid ks = generateEtherscanCompatibleUrl cid "ipfs_io".data := by
  induction ks with
  | nil => rfl
  | cons k ks ih =>
    simp only [findGatewayLoop, h k (by simp), if_false, Bool.false_eq_true]
    exact ih fun k' hk' => h k' (by simp [hk'])

theorem findGatewayLoop_first_ok (probe : List Char → ProbeResult) (cid : List Char)
    (pre : List (List Char)) (k : List Char) (post : List (List Char))
    (hpre : ∀ k' ∈ pre, responseOk (probe (generateEtherscanCompatibleUrl cid k')) = false)
    (hk : responseOk (probe (generateEtherscanCompatibleUrl cid k)) = true) :
    findGatewayLoop probe cid (pre ++ k :: post) = generateEtherscanCompatibleUrl cid k := by
  induction pre with
  | nil => simp [findGatewayLoop, hk]
  | cons p pre ih =>
    simp only [List.cons_append, findGatewayLoop, hpre p (by simp), if_false,
      Bool.false_eq_true]
    exact ih fun k' hk' => hpre k' (by simp [hk'])

/-- C4 (amended): `findAccessibleGateway`, probing the priority-ordered
gateway list, returns the URL of the first endpoint whose probe returns a
2xx status — in particular, if exactly one endpoint's probe is 2xx, it
returns that endpoint's URL regardless of its list position — but when
every probe fails, it returns the default `ipfs_io` gateway URL
(`https://ipfs.io/ipfs/` + cid, the fourth entry of the priority list), not
the first-priority gateway's URL. -/
theorem findAccessibleGateway_first_2xx (probe : List Char → ProbeResult) (cid : List Char) :
    (∀ pre k post, gatewayKeys = pre ++ k :: post →
       (∀ k' ∈ pre, responseOk (probe (generateEtherscanCompatibleUrl cid k')) = false) →
       responseOk (probe (generateEtherscanCompatibleUrl cid k)) = true →
       findAccessibleGateway probe cid = generateEtherscanCompatibleUrl cid k)
    ∧ ((∀ k ∈ gatewayKeys, responseOk (probe (generateEtherscanCompatibleUrl cid k)) = false) →
       findAccessibleGateway probe cid = "https://ipfs.io/ipfs/".data ++ cid) := by
  constructor
  · intro pre k post hsplit hpre hk
    unfold findAccessibleGateway
    rw [hsplit]
    exact findGatewayLoop_first_ok probe cid pre k post hpre hk
  · intro h
    unfold findAccessibleGateway
    rw [findGatewayLoop_all_fail probe cid gatewayKeys h]
    rfl

/-- Witness for C4 (amended): with a probe that answers 2xx only for the
second-priority gateway `dweb`, `findAccessibleGateway` returns the dweb
URL; with a probe that always fails, it returns the `ipfs_io` URL. -/
theorem findAccessibleGateway_first_2xx_witness :
    findAccessibleGateway
        (fun u => if u = "https://dweb.link/ipfs/QmX".data then .status 200 else .netError)
        "QmX".data
      = "https://dweb.link/ipfs/QmX".data
    ∧ findAccessibleGateway (fun _ => .netError) "QmX".data
      = "https://ipfs.io/ipfs/QmX".data := by
  constructor
  · have h := (findAccessibleGateway_first_2xx
        (fun u => if u = "https://dweb.link/ipfs/QmX".data then .status 200 else .netError)
        "QmX".data).1 ["w3s_link".data] "dweb".data
        ["gateway_pinata".data, "ipfs_io".data, "cf_ipfs".data, "cloudflare_ipfs".data,
         "nftstorage".data, "web3storage".data]
        (by rfl) (by decide) (by decide)
    exact h
  · have h := (findAccessibleGateway_first_2xx (fun _ => .netError) "QmX".data).2
        (by intro k hk; rfl)
    exact h

/-- Counterexample for C4: when every probe fails, `findAccessibleGateway`
returns the `ipfs_io` URL, which differs from the first-priority gateway's
(`w3s_link`) URL that the claim promises. -/
theorem findAccessibleGateway_all_fail_not_first_priority :
    findAccessibleGateway (fun _ => .netError)
        "QmYwAPJzv5CZsnA625s3Xf2nemtYgPpHdWEz79ojWnPbdG".data
      = "https://ipfs.io/ipfs/QmYwAPJzv5CZsnA625s3Xf2nemtYgPpHdWEz79ojWnPbdG".data
    ∧ findAccessibleGateway (fun _ => .netError)
        "QmYwAPJzv5CZsnA625s3Xf2nemtYgPpHdWEz79ojWnPbdG".data
      ≠ generateEtherscanCompatibleUrl
          "QmYwAPJzv5CZsnA625s3Xf2nemtYgPpHdWEz79ojWnPbdG".data (gatewayKeys.headD []) := by
  constructor
  · rfl
  · decide

/-- Counterexample for C5: the fallback result of the mock upload for the
file `a.png` at timestamp 1700000000000 carries no `degraded` field at all,
and its synthetic identifier is 26 characters long, not the 46-character
legacy shape. -/
theorem mockUpload_no_degraded_flag :
    (mockUploadToIPFS "a.png".data 1700000000000).lookup "degraded".data = none
    ∧ (mockCID "a.png".data 1700000000000).length ≠ 46 := by
  constructor
  · rfl
  · decide

/-- C5 (amended): when authenticated publication fails for any reason, the
`uploadToIPFS` operation returned by `getIPFSUploader` substitutes the
deterministic synthetic identifier derived from filename+timestamp (`Qm`
followed by the first at-most-44 alphanumeric base64 characters, so of
length at most 46 and equal to 46 only when 44 such characters exist), and
the fallback result has exactly the genuine field set `{cid, httpsUrl,
ipfsUri}` with no `degraded` marker, so a fallback result is not
distinguishable from a genuine upload by any flag. -/
theorem uploadFallback_shape (e fileName : List Char) (now : Nat) :
    uploadToIPFSFallback (.error e) fileName now = mockUploadToIPFS fileName now
    ∧ (mockUploadToIPFS fileName now).lookup "degraded".data = none
    ∧ (mockUploadToIPFS fileName now).map Prod.fst
        = ["cid".data, "httpsUrl".data, "ipfsUri".data]
    ∧ (mockCID fileName now).take 2 = "Qm".data
    ∧ (mockCID fileName now).length ≤ 46 := by
  refine ⟨rfl, ?_, rfl, rfl, ?_⟩
  · have h1 : ("degraded".data == "cid".data) = false := rfl
    have h2 : ("degraded".data == "httpsUrl".data) = false := rfl
    have h3 : ("degraded".data == "ipfsUri".data) = false := rfl
    simp [mockUploadToIPFS, List.lookup, h1, h2, h3]
  · simp only [mockCID, List.length_cons, List.length_take]
    omega

/-- Counterexample for C8: invoking `mintNFT` from a state whose in-flight
flag is already set still starts the pipeline — the prior attempt does not
block the second invocation. -/
theorem mintNFTEntry_reenters_while_in_flight :
    mintNFTEntry { uploading := true, errorMsg := [], successMsg := [] } true true
      = .started { uploading := true, errorMsg := [], successMsg := [] } := rfl

/-- C8 (amended): the hook tracks an in-flight flag (`uploading`, exposed as
`isMinting`) that the UI uses to disable the mint control while a mint is
in flight, but `mintNFT` itself never consults the flag: its entry check
only rejects a missing file or account, so a direct second invocation from
the same instance proceeds into the pipeline even while `uploading` is
true. -/
theorem mintNFTEntry_ignores_uploading_flag (s : HookState) :
    mintNFTEntry s true true
      = .started { s with uploading := true, errorMsg := [], successMsg := [] }
    ∧ mintNFTEntry { s with uploading := true } true true
      = .started { s with uploading := true, errorMsg := [], successMsg := [] }
    ∧ mintNFTEntry s false true = .rejectedMissingArgs
    ∧ mintNFTEntry s true false = .rejectedMissingArgs := by
  exact ⟨rfl, rfl, rfl, rfl⟩

/-- Counterexample for C9: the string `x` fails `isValidCID`, yet
`findAccessibleGateway` still issues gateway probes for it (its fetch trace
is nonempty), and `realUploadToIPFS` detects the bad identifier only after
the pin network request was made. -/
theorem network_calls_issued_for_invalid_identifier :
    isValidCID "x".data = false
    ∧ gatewayProbeTrace (fun _ => .netError) "x".data ≠ []
    ∧ (realUploadToIPFS true (some "x".data)).pinCallMade = true
    ∧ (realUploadToIPFS true (some "x".data)).result
        = .error "Invalid CID format: x".data := by
  exact ⟨rfl, by decide, rfl, rfl⟩

/-- C9 (amended): identifier validation does not precede network calls:
`findAccessibleGateway` fetches the first gateway URL for every identifier,
validated or not, and the upload path issues the pin request first and only
validates the CID the service returns afterwards, raising the
`Invalid CID format` error after that network call. -/
theorem validation_does_not_precede_network (probe : List Char → ProbeResult)
    (cid ipfsHash : List Char) :
    (gatewayProbeTrace probe cid).head?
        = some (generateEtherscanCompatibleUrl cid "w3s_link".data)
    ∧ (realUploadToIPFS true (some ipfsHash)).pinCallMade = true
    ∧ (isValidCID ipfsHash = false →
        (realUploadToIPFS true (some ipfsHash)).result
          = .error ("Invalid CID format: ".data ++ ipfsHash)) := by
  refine ⟨?_, ?_, ?_⟩
  · show (probeTraceLoop probe cid gatewayKeys).head? = _
    have hkeys : gatewayKeys = "w3s_link".data ::
        ["dweb".data, "gateway_pinata".data, "ipfs_io".data, "cf_ipfs".data,
         "cloudflare_ipfs".data, "nftstorage".data, "web3storage".data] := rfl
    rw [hkeys]
    simp only [probeTraceLoop]
    split <;> rfl
  · simp only [realUploadToIPFS, if_neg (by simp : ¬ (true = false))]
    split <;> rfl
  · intro hbad
    simp [realUploadToIPFS, hbad]

/-- Witness for C9 (amended): the invalid identifier `x` is probed at the
first-priority gateway and its upload validation error arrives only after
the pin call. -/
theorem validation_does_not_precede_network_witness :
    (gatewayProbeTrace (fun _ => .netError) "x".data).head?
        = some "https://w3s.link/ipfs/x".data
    ∧ (realUploadToIPFS true (some "x".data)).pinCallMade = true
    ∧ (realUploadToIPFS true (some "x".data)).result
        = .error "Invalid CID format: x".data := by
  have h := validation_does_not_precede_network (fun _ => .netError) "x".data "x".data
  exact ⟨h.1, h.2.1, h.2.2 (by rfl)⟩

/-- C7: after a confirmed mint transaction, the hook resolves the tokenId
from the first `Transfer` event of the receipt's logs, falling back to
`getCurrentTokenId() - 1` when no log parses to that event; in both paths
it performs the `ownerOf` verification read before returning, a failed
verification is a hard error, and an unverified tokenId is never
returned. -/
theorem resolveTokenId_verified (logs : List ParsedLog) (currentId : Nat)
    (owner : Nat → Option Nat) :
    (∀ tid, resolveTokenId logs currentId owner = .ok tid →
       (owner tid).isSome = true ∧ tid = resolvedCandidate logs currentId)
    ∧ (owner (resolvedCandidate logs currentId) = none →
       resolveTokenId logs currentId owner = .error "Token ID not found".data)
    ∧ (∀ tid t, logs.find? isTransferLog = some (.transferEvent t) →
       resolveTokenId logs currentId owner = .ok tid → tid = t)
    ∧ (∀ tid, logs.find? isTransferLog = none →
       resolveTokenId logs currentId owner = .ok tid → tid = currentId - 1) := by
  refine ⟨?_, ?_, ?_, ?_⟩
  · intro tid h
    unfold resolveTokenId at h
    cases howner : owner (resolvedCandidate logs currentId) with
    | none => rw [howner] at h; exact absurd h (by simp)
    | some w =>
        rw [howner] at h
        simp only [Except.ok.injEq] at h
        subst h
        exact ⟨by simp [howner], rfl⟩
  · intro howner
    unfold resolveTokenId
    rw [howner]
  · intro tid t hfind h
    have hcand : resolvedCandidate logs currentId = t := by
      unfold resolvedCandidate
      rw [hfind]
    unfold resolveTokenId at h
    rw [hcand] at h
    cases howner : owner t with
    | none => rw [howner] at h; exact absurd h (by simp)
    | some w => rw [howner] at h; simpa using h.symm
  · intro tid hfind h
    have hcand : resolvedCandidate logs currentId = currentId - 1 := by
      unfold resolvedCandidate
      rw [hfind]
    unfold resolveTokenId at h
    rw [hcand] at h
    cases howner : owner (currentId - 1) with
    | none => rw [howner] at h; exact absurd h (by simp)
    | some w => rw [howner] at h; simpa using h.symm

/-- Witness for C7: with a receipt whose second log is a `Transfer` event for
token 5 and a chain where token 5 is owned by address 7, the hook resolves
token 5 and the verification read succeeds. -/
theorem resolveTokenId_verified_witness :
    ((fun t => if t = 5 then some 7 else none) (5 : Nat)).isSome = true
    ∧ (5 : Nat) = resolvedCandidate [.otherEvent, .transferEvent 5] 6 :=
  (resolveTokenId_verified [.otherEvent, .transferEvent 5] 6
    (fun t => if t = 5 then some 7 else none)).1 5 (by rfl)

theorem safeMint_ok {s s' : ContractState} {r tid : Nat} (h : safeMint s r tid = .ok s') :
    r ≠ 0 ∧ s.owners.lookup tid = none ∧ s' = { s with owners := (tid, r) :: s.owners } := by
  unfold safeMint at h
  split at h
  · exact absurd h (by simp)
  · split at h
    · exact absurd h (by simp)
    · rename_i h1 h2
      simp only [Except.ok.injEq] at h
      exact ⟨h1, Option.not_isSome_iff_eq_none.mp (by simpa using h2), h.symm⟩

/-- The `NFTInfo` record a successful IPFS mint stores. -/
def mintedInfo (minterAddr ts : Nat) (n d ipfsHash : List Char) : NFTInfo :=
  { name := n, description := d, imageURI := onChainGatewayBase ++ ipfsHash
    timestamp := ts, minter := minterAddr }

theorem makeAnEpicNFT_ok {s : ContractState} {sender v : Nat} {uri : List Char}
    {s' : ContractState} {tid : Nat} (h : makeAnEpicNFT s sender v uri = .ok (s', tid)) :
    tid = s.tokenIdCounter
    ∧ s' = { s with owners := (s.tokenIdCounter, sender) :: s.owners
                    tokenURIs := (s.tokenIdCounter, uri) :: s.tokenURIs
                    tokenIdCounter := s.tokenIdCounter + 1
                    balance := s.balance + v }
    ∧ s.mintingEnabled = true ∧ s.tokenIdCounter ≤ MAX_SUPPLY ∧ s.mintPrice ≤ v ∧ uri ≠ []
    ∧ sender ≠ 0 ∧ s.owners.lookup s.tokenIdCounter = none := by
  unfold makeAnEpicNFT at h
  split at h
  · exact absurd h (by simp)
  rename_i hen
  split at h
  · exact absurd h (by simp)
  rename_i hsup
  split at h
  · exact absurd h (by simp)
  rename_i hpay
  split at h
  · exact absurd h (by simp)
  rename_i huri
  dsimp only at h
  split at h
  · exact absurd h (by simp)
  · rename_i s1 heq
    obtain ⟨hne, hfresh, rfl⟩ := safeMint_ok heq
    simp only [Except.ok.injEq, Prod.mk.injEq] at h
    obtain ⟨rfl, rfl⟩ := h
    refine ⟨rfl, rfl, ?_, by omega, by omega, ?_, hne, hfresh⟩
    · revert hen; cases s.mintingEnabled <;> simp
    · intro hh; subst hh; exact huri rfl

theorem mintIpfsNFT_ok {s : ContractState} {sender v ts : Nat} {n d ipfsHash : List Char}
    {s' : ContractState} {tid : Nat}
    (h : mintIpfsNFT s sender v ts n d ipfsHash = .ok (s', tid)) :
    tid = s.tokenIdCounter
    ∧ s' = { s with
        infos := (s.tokenIdCounter, mintedInfo sender ts n d ipfsHash) :: s.infos
        owners := (s.tokenIdCounter, sender) :: s.owners
        tokenURIs := (s.tokenIdCounter,
          generateMetadataURI
            { s with infos := (s.tokenIdCounter, mintedInfo sender ts n d ipfsHash) :: s.infos }
            s.tokenIdCounter) :: s.tokenURIs
        tokenIdCounter := s.tokenIdCounter + 1
        balance := s.balance + v }
    ∧ s.mintingEnabled = true ∧ s.tokenIdCounter ≤ MAX_SUPPLY ∧ s.mintPrice ≤ v
    ∧ n ≠ [] ∧ d ≠ [] ∧ ipfsHash ≠ []
    ∧ sender ≠ 0 ∧ s.owners.lookup s.tokenIdCounter = none := by
  unfold mintIpfsNFT at h
  split at h
  · exact absurd h (by simp)
  rename_i hen
  split at h
  · exact absurd h (by simp)
  rename_i hsup
  split at h
  · exact absurd h (by simp)
  rename_i hpay
  split at h
  · exact absurd h (by simp)
  rename_i hn
  split at h
  · exact absurd h (by simp)
  rename_i hd
  split at h
  · exact absurd h (by simp)
  rename_i hh
  dsimp only at h
  split at h
  · exact absurd h (by simp)
  · rename_i s2 heq
    obtain ⟨hne, hfresh, rfl⟩ := safeMint_ok heq
    simp only [Except.ok.injEq, Prod.mk.injEq] at h
    obtain ⟨rfl, rfl⟩ := h
    refine ⟨rfl, rfl, ?_, by omega, by omega, ?_, ?_, ?_, hne, by simpa using hfresh⟩
    · revert hen; cases s.mintingEnabled <;> simp
    · intro he; subst he; exact hn rfl
    · intro he; subst he; exact hd rfl
    · intro he; subst he; exact hh rfl

theorem mintIpfsNFTWithMetadata_ok {s : ContractState} {sender v ts : Nat}
    {n d ipfsHash uri : List Char} {s' : ContractState} {tid : Nat}
    (h : mintIpfsNFTWithMetadata s sender v ts n d ipfsHash uri = .ok (s', tid)) :
    tid = s.tokenIdCounter
    ∧ s' = { s with
        infos := (s.tokenIdCounter, mintedInfo sender ts n d ipfsHash) :: s.infos
        owners := (s.tokenIdCounter, sender) :: s.owners
        tokenURIs := (s.tokenIdCounter, uri) :: s.tokenURIs
        tokenIdCounter := s.tokenIdCounter + 1
        balance := s.balance + v }
    ∧ s.mintingEnabled = true ∧ s.tokenIdCounter ≤ MAX_SUPPLY ∧ s.mintPrice ≤ v := by
  unfold mintIpfsNFTWithMetadata at h
  split at h
  · exact absurd h (by simp)
  rename_i hen
  split at h
  · exact absurd h (by simp)
  rename_i hsup
  split at h
  · exact absurd h (by simp)
  rename_i hpay
  split at h
  · exact absurd h (by simp)
  split at h
  · exact absurd h (by simp)
  split at h
  · exact absurd h (by simp)
  split at h
  · exact absurd h (by simp)
  dsimp only at h
  split at h
  · exact absurd h (by simp)
  · rename_i s2 heq
    obtain ⟨hne, hfresh, rfl⟩ := safeMint_ok heq
    simp only [Except.ok.injEq, Prod.mk.injEq] at h
    obtain ⟨rfl, rfl⟩ := h
    refine ⟨rfl, rfl, ?_, by omega, by omega⟩
    revert hen; cases s.mintingEnabled <;> simp

theorem ownerMint_ok {s : ContractState} {sender r : Nat} {uri : List Char}
    {s' : ContractState} {tid : Nat} (h : ownerMint s sender r uri = .ok (s', tid)) :
    tid = s.tokenIdCounter
    ∧ s' = { s with owners := (s.tokenIdCounter, r) :: s.owners
                    tokenURIs := (s.tokenIdCounter, uri) :: s.tokenURIs
                    tokenIdCounter := s.tokenIdCounter + 1 } := by
  unfold ownerMint at h
  split at h
  · exact absurd h (by simp)
  split at h
  · exact absurd h (by simp)
  split at h
  · exact absurd h (by simp)
  dsimp only at h
  split at h
  · exact absurd h (by simp)
  · rename_i s1 heq
    obtain ⟨hne, hfresh, rfl⟩ := safeMint_ok heq
    simp only [Except.ok.injEq, Prod.mk.injEq] at h
    obtain ⟨rfl, rfl⟩ := h
    exact ⟨rfl, rfl⟩

theorem ownerMintIpfs_ok {s : ContractState} {sender r ts : Nat} {n d ipfsHash : List Char}
    {s' : ContractState} {tid : Nat}
    (h : ownerMintIpfs s sender r ts n d ipfsHash = .ok (s', tid)) :
    tid = s.tokenIdCounter
    ∧ s' = { s with
        infos := (s.tokenIdCounter, mintedInfo r ts n d ipfsHash) :: s.infos
        owners := (s.tokenIdCounter, r) :: s.owners
        tokenURIs := (s.tokenIdCounter,
          generateMetadataURI
            { s with infos := (s.tokenIdCounter, mintedInfo r ts n d ipfsHash) :: s.infos }
            s.tokenIdCounter) :: s.tokenURIs
        tokenIdCounter := s.tokenIdCounter + 1 } := by
  unfold ownerMintIpfs at h
  split at h
  · exact absurd h (by simp)
  split at h
  · exact absurd h (by simp)
  split at h
  · exact absurd h (by simp)
  split at h
  · exact absurd h (by simp)
  dsimp only at h
  split at h
  · exact absurd h (by simp)
  · rename_i s2 heq
    obtain ⟨hne, hfresh, rfl⟩ := safeMint_ok heq
    simp only [Except.ok.injEq, Prod.mk.injEq] at h
    obtain ⟨rfl, rfl⟩ := h
    exact ⟨rfl, rfl⟩

theorem toggleMinting_ok {s s' : ContractState} {sender : Nat} {b : Bool}
    (h : toggleMinting s sender b = .ok s') : s' = { s with mintingEnabled := b } := by
  unfold toggleMinting at h
  split at h
  · exact absurd h (by simp)
  · simpa using h.symm

theorem updateMintPrice_ok {s s' : ContractState} {sender p : Nat}
    (h : updateMintPrice s sender p = .ok s') : s' = { s with mintPrice := p } := by
  unfold updateMintPrice at h
  split at h
  · exact absurd h (by simp)
  · simpa using h.symm

theorem withdraw_ok {s s' : ContractState} {sender : Nat}
    (h : withdraw s sender = .ok s') : s' = { s with balance := 0 } := by
  unfold withdraw at h
  split at h
  · exact absurd h (by simp)
  · split at h
    · exact absurd h (by simp)
    · simpa using h.symm

theorem lookup_cons_bound {owners : List (Nat × Nat)} {c w t o : Nat}
    (h2 : ∀ tid u, owners.lookup tid = some u → 1 ≤ tid ∧ tid < c)
    (hc : 1 ≤ c)
    (hl : ((c, w) :: owners).lookup t = some o) : 1 ≤ t ∧ t < c + 1 := by
  by_cases ht : t = c
  · omega
  · rw [List.lookup_cons, beq_false_of_ne ht] at hl
    have := h2 t o hl
    omega

theorem counterInvariant_step {s s' : ContractState} (hs : CounterInvariant s)
    (h : Step s s') : CounterInvariant s' := by
  obtain ⟨h1, h2⟩ := hs
  cases h with
  | epicMint sender v uri tid hmint =>
    obtain ⟨htid, rfl, -⟩ := makeAnEpicNFT_ok hmint
    exact ⟨by simp, fun t o hl => lookup_cons_bound h2 h1 hl⟩
  | ipfsMint sender v ts n d ipfsHash tid hmint =>
    obtain ⟨htid, rfl, -⟩ := mintIpfsNFT_ok hmint
    exact ⟨by simp, fun t o hl => lookup_cons_bound h2 h1 hl⟩
  | ipfsMetaMint sender v ts n d ipfsHash uri tid hmint =>
    obtain ⟨htid, rfl, -⟩ := mintIpfsNFTWithMetadata_ok hmint
    exact ⟨by simp, fun t o hl => lookup_cons_bound h2 h1 hl⟩
  | ownerMintStep sender r uri tid hmint =>
    obtain ⟨htid, rfl⟩ := ownerMint_ok hmint
    exact ⟨by simp, fun t o hl => lookup_cons_bound h2 h1 hl⟩
  | ownerMintIpfsStep sender r ts n d ipfsHash tid hmint =>
    obtain ⟨htid, rfl⟩ := ownerMintIpfs_ok hmint
    exact ⟨by simp, fun t o hl => lookup_cons_bound h2 h1 hl⟩
  | toggleStep sender b hcall =>
    obtain rfl := toggleMinting_ok hcall
    exact ⟨h1, h2⟩
  | priceStep sender p hcall =>
    obtain rfl := updateMintPrice_ok hcall
    exact ⟨h1, h2⟩
  | withdrawStep sender hcall =>
    obtain rfl := withdraw_ok hcall
    exact ⟨h1, h2⟩

theorem reachable_counterInvariant {s : ContractState} (h : Reachable s) :
    CounterInvariant s := by
  induction h with
  | deployed deployer => exact ⟨by simp [initialState], by simp [initialState]⟩
  | next hr hstep ih => exact counterInvariant_step ih hstep

/-- C2: in every reachable registry state `totalSupply()` equals
`nextTokenId - 1`; the counter starts at 1 at construction; every owned
token id is 1-based and below the counter (so ids are never reused); and a
successful mint assigns exactly the pre-call counter value as tokenId,
increments the counter by one, increments `totalSupply` by one, and its id
is fresh and strictly larger than every previously assigned id. -/
theorem totalSupply_counter_invariant (s : ContractState) (h : Reachable s) :
    totalSupply s = s.tokenIdCounter - 1
    ∧ (∀ deployer, (initialState deployer).tokenIdCounter = 1)
    ∧ 1 ≤ s.tokenIdCounter
    ∧ (∀ tid o, s.owners.lookup tid = some o → 1 ≤ tid ∧ tid < s.tokenIdCounter)
    ∧ (∀ sender v uri s' tid, makeAnEpicNFT s sender v uri = .ok (s', tid) →
        tid = s.tokenIdCounter ∧ s'.tokenIdCounter = s.tokenIdCounter + 1
        ∧ s.owners.lookup tid = none ∧ totalSupply s' = totalSupply s + 1
        ∧ ∀ t o, s.owners.lookup t = some o → t < tid)
    ∧ (∀ sender v ts n d ipfsHash s' tid,
        mintIpfsNFT s sender v ts n d ipfsHash = .ok (s', tid) →
        tid = s.tokenIdCounter ∧ s'.tokenIdCounter = s.tokenIdCounter + 1
        ∧ s.owners.lookup tid = none ∧ totalSupply s' = totalSupply s + 1
        ∧ ∀ t o, s.owners.lookup t = some o → t < tid) := by
  obtain ⟨h1, h2⟩ := reachable_counterInvariant h
  refine ⟨rfl, fun _ => rfl, h1, h2, ?_, ?_⟩
  · intro sender v uri s' tid hmint
    obtain ⟨rfl, rfl, -, -, -, -, -, hfresh⟩ := makeAnEpicNFT_ok hmint
    refine ⟨rfl, by simp, hfresh, ?_, fun t o hl => (h2 t o hl).2⟩
    simp only [totalSupply]
    omega
  · intro sender v ts n d ipfsHash s' tid hmint
    obtain ⟨rfl, rfl, -, -, -, -, -, -, -, hfresh⟩ := mintIpfsNFT_ok hmint
    refine ⟨rfl, by simp, hfresh, ?_, fun t o hl => (h2 t o hl).2⟩
    simp only [totalSupply]
    omega

/-- Witness for C2: the invariant instantiated at the freshly deployed
state. -/
theorem totalSupply_counter_invariant_witness :
    totalSupply (initialState 1) = (initialState 1).tokenIdCounter - 1
    ∧ 1 ≤ (initialState 1).tokenIdCounter :=
  ⟨(totalSupply_counter_invariant (initialState 1) (Reachable.deployed 1)).1,
   (totalSupply_counter_invariant (initialState 1) (Reachable.deployed 1)).2.2.1⟩

/-- C6: reading the stored record of a token minted by a successful
`mintIpfsNFT(name, description, hash)` via `getNFTInfo` returns exactly
that name, that description, and the imageURI
`https://ipfs.io/ipfs/ + hash`. -/
theorem mintIpfsNFT_roundtrip (s : ContractState) (sender v ts : Nat)
    (n d ipfsHash : List Char) (s' : ContractState) (tid : Nat)
    (h : mintIpfsNFT s sender v ts n d ipfsHash = .ok (s', tid)) :
    getNFTInfo s' tid =
      { name := n, description := d, imageURI := "https://ipfs.io/ipfs/".data ++ ipfsHash
        timestamp := ts, minter := sender } := by
  obtain ⟨rfl, rfl, -⟩ := mintIpfsNFT_ok h
  simp [getNFTInfo, nftInfoOf, List.lookup_cons, mintedInfo, onChainGatewayBase]

/-- Witness for C6: a concrete mint of (`A`, `B`, `QmX`) on the freshly
deployed contract reads back exactly those fields. -/
theorem mintIpfsNFT_roundtrip_witness :
    getNFTInfo sampleIpfsMint.1 sampleIpfsMint.2 =
      { name := "A".data, description := "B".data
        imageURI := "https://ipfs.io/ipfs/QmX".data, timestamp := 99, minter := 5 } :=
  mintIpfsNFT_roundtrip (initialState 1) 5 initialMintPrice 99 "A".data "B".data "QmX".data
    sampleIpfsMint.1 sampleIpfsMint.2 (by rfl)

/-- C10: a successful payable mint whose payment strictly exceeds the fee
keeps the entire attached amount — the contract balance grows by exactly
the full payment, which differs from growing by the fee only, so no excess
is refunded. -/
theorem mint_keeps_full_overpayment (s : ContractState) (sender v ts : Nat)
    (n d ipfsHash uri : List Char) (hover : s.mintPrice < v) :
    (∀ s' tid, mintIpfsNFT s sender v ts n d ipfsHash = .ok (s', tid) →
       getContractBalance s' = getContractBalance s + v
       ∧ getContractBalance s' ≠ getContractBalance s + s.mintPrice)
    ∧ (∀ s' tid, makeAnEpicNFT s sender v uri = .ok (s', tid) →
       getContractBalance s' = getContractBalance s + v
       ∧ getContractBalance s' ≠ getContractBalance s + s.mintPrice) := by
  constructor
  · intro s' tid h
    obtain ⟨-, rfl, -⟩ := mintIpfsNFT_ok h
    refine ⟨by simp [getContractBalance], ?_⟩
    simp only [getContractBalance]
    omega
  · intro s' tid h
    obtain ⟨-, rfl, -⟩ := makeAnEpicNFT_ok h
    refine ⟨by simp [getContractBalance], ?_⟩
    simp only [getContractBalance]
    omega

/-- Witness for C10: overpaying the fee by 7 wei on the freshly deployed
contract leaves the whole payment in the contract. -/
theorem mint_keeps_full_overpayment_witness :
    getContractBalance sampleOverpaidMint.1
      = getContractBalance (initialState 1) + (initialMintPrice + 7) :=
  ((mint_keeps_full_overpayment (initialState 1) 5 (initialMintPrice + 7) 99
      "A".data "B".data "QmX".data "u".data
      (by show initialMintPrice < initialMintPrice + 7; omega)).1
    sampleOverpaidMint.1 sampleOverpaidMint.2 (by rfl)).1

theorem epic_isOk_iff (s : ContractState) (sender v : Nat) (uri : List Char)
    (hsender : sender ≠ 0) (hfresh : s.owners.lookup s.tokenIdCounter = none) :
    (makeAnEpicNFT s sender v uri).isOk = true ↔
      (s.mintingEnabled = true ∧ s.tokenIdCounter ≤ MAX_SUPPLY ∧ s.mintPrice ≤ v
        ∧ uri ≠ []) := by
  constructor
  · intro hok
    cases hres : makeAnEpicNFT s sender v uri with
    | error e => rw [hres] at hok; exact absurd hok (by simp [Except.isOk, Except.toBool])
    | ok r =>
      obtain ⟨s', tid⟩ := r
      obtain ⟨-, -, hen, hsup, hpay, huri, -⟩ := makeAnEpicNFT_ok hres
      exact ⟨hen, hsup, hpay, huri⟩
  · rintro ⟨hen, hsup, hpay, huri⟩
    unfold makeAnEpicNFT
    rw [if_neg (by simp [hen]), if_neg (by omega), if_neg (by omega),
      if_neg (by simpa using huri)]
    dsimp only
    rw [show safeMint s sender s.tokenIdCounter
        = .ok { s with owners := (s.tokenIdCounter, sender) :: s.owners } from by
      simp [safeMint, hsender, hfresh]]
    rfl

theorem ipfs_isOk_iff (s : ContractState) (sender v ts : Nat) (n d ipfsHash : List Char)
    (hsender : sender ≠ 0) (hfresh : s.owners.lookup s.tokenIdCounter = none) :
    (mintIpfsNFT s sender v ts n d ipfsHash).isOk = true ↔
      (s.mintingEnabled = true ∧ s.tokenIdCounter ≤ MAX_SUPPLY ∧ s.mintPrice ≤ v
        ∧ n ≠ [] ∧ d ≠ [] ∧ ipfsHash ≠ []) := by
  constructor
  · intro hok
    cases hres : mintIpfsNFT s sender v ts n d ipfsHash with
    | error e => rw [hres] at hok; exact absurd hok (by simp [Except.isOk, Except.toBool])
    | ok r =>
      obtain ⟨s', tid⟩ := r
      obtain ⟨-, -, hen, hsup, hpay, hn, hd, hh, -⟩ := mintIpfsNFT_ok hres
      exact ⟨hen, hsup, hpay, hn, hd, hh⟩
  · rintro ⟨hen, hsup, hpay, hn, hd, hh⟩
    unfold mintIpfsNFT
    rw [if_neg (by simp [hen]), if_neg (by omega), if_neg (by omega),
      if_neg (by simpa using hn), if_neg (by simpa using hd), if_neg (by simpa using hh)]
    dsimp only
    rw [show safeMint
          { s with infos :=
              (s.tokenIdCounter,
                { name := n, description := d
                  imageURI := onChainGatewayBase ++ ipfsHash
                  timestamp := ts, minter := sender }) :: s.infos }
          sender s.tokenIdCounter
        = .ok { s with
            infos := (s.tokenIdCounter,
              { name := n, description := d
                imageURI := onChainGatewayBase ++ ipfsHash
                timestamp := ts, minter := sender }) :: s.infos
            owners := (s.tokenIdCounter, sender) :: s.owners } from by
      simp [safeMint, hsender, hfresh]]
    rfl

/-- C1: a call to a payable mint entry point (`makeAnEpicNFT` or
`mintIpfsNFT`) by a nonzero sender on any reachable contract state
succeeds exactly when minting is enabled, the counter is at most
`MAX_SUPPLY`, the payment covers the current fee, and every string argument
is non-empty; the first violated precondition reverts with its named error
(`MintingDisabled`, `MaxSupplyExceeded`, `InsufficientPayment`,
`InvalidTokenURI`, `EmptyName`, `EmptyDescription`, `InvalidIPFSHash`); and
a reverted call leaves the contract state — counter, ownership table and
funds — unchanged. -/
theorem payable_mint_precondition_complete (s : ContractState) (sender v ts : Nat)
    (uri n d ipfsHash : List Char)
    (hsender : sender ≠ 0) (hreach : Reachable s) :
    ((makeAnEpicNFT s sender v uri).isOk = true ↔
      (s.mintingEnabled = true ∧ s.tokenIdCounter ≤ MAX_SUPPLY ∧ s.mintPrice ≤ v
        ∧ uri ≠ []))
    ∧ ((mintIpfsNFT s sender v ts n d ipfsHash).isOk = true ↔
      (s.mintingEnabled = true ∧ s.tokenIdCounter ≤ MAX_SUPPLY ∧ s.mintPrice ≤ v
        ∧ n ≠ [] ∧ d ≠ [] ∧ ipfsHash ≠ []))
    ∧ (s.mintingEnabled = false →
        makeAnEpicNFT s sender v uri = .error .MintingDisabled
        ∧ mintIpfsNFT s sender v ts n d ipfsHash = .error .MintingDisabled)
    ∧ (s.mintingEnabled = true → MAX_SUPPLY < s.tokenIdCounter →
        makeAnEpicNFT s sender v uri = .error .MaxSupplyExceeded
        ∧ mintIpfsNFT s sender v ts n d ipfsHash = .error .MaxSupplyExceeded)
    ∧ (s.mintingEnabled = true → s.tokenIdCounter ≤ MAX_SUPPLY → v < s.mintPrice →
        makeAnEpicNFT s sender v uri = .error .InsufficientPayment
        ∧ mintIpfsNFT s sender v ts n d ipfsHash = .error .InsufficientPayment)
    ∧ (s.mintingEnabled = true → s.tokenIdCounter ≤ MAX_SUPPLY → s.mintPrice ≤ v →
        uri = [] → makeAnEpicNFT s sender v uri = .error .InvalidTokenURI)
    ∧ (s.mintingEnabled = true → s.tokenIdCounter ≤ MAX_SUPPLY → s.mintPrice ≤ v →
        n = [] → mintIpfsNFT s sender v ts n d ipfsHash = .error .EmptyName)
    ∧ (s.mintingEnabled = true → s.tokenIdCounter ≤ MAX_SUPPLY → s.mintPrice ≤ v →
        n ≠ [] → d = [] → mintIpfsNFT s sender v ts n d ipfsHash = .error .EmptyDescription)
    ∧ (s.mintingEnabled = true → s.tokenIdCounter ≤ MAX_SUPPLY → s.mintPrice ≤ v →
        n ≠ [] → d ≠ [] → ipfsHash = [] →
        mintIpfsNFT s sender v ts n d ipfsHash = .error .InvalidIPFSHash)
    ∧ (∀ e, makeAnEpicNFT s sender v uri = .error e →
        mintCallState (makeAnEpicNFT s sender v uri) s = s)
    ∧ (∀ e, mintIpfsNFT s sender v ts n d ipfsHash = .error e →
        mintCallState (mintIpfsNFT s sender v ts n d ipfsHash) s = s) := by
  have hfresh : s.owners.lookup s.tokenIdCounter = none := by
    obtain ⟨h1, h2⟩ := reachable_counterInvariant hreach
    cases hl : s.owners.lookup s.tokenIdCounter with
    | none => rfl
    | some o => have := h2 _ _ hl; omega
  refine ⟨epic_isOk_iff s sender v uri hsender hfresh,
    ipfs_isOk_iff s sender v ts n d ipfsHash hsender hfresh,
    ?_, ?_, ?_, ?_, ?_, ?_, ?_, ?_, ?_⟩
  · intro hdis
    constructor <;> simp [makeAnEpicNFT, mintIpfsNFT, hdis]
  · intro hen hsup
    refine ⟨?_, ?_⟩
    · unfold makeAnEpicNFT
      rw [if_neg (by simp [hen]), if_pos hsup]
    · unfold mintIpfsNFT
      rw [if_neg (by simp [hen]), if_pos hsup]
  · intro hen hsup hv
    refine ⟨?_, ?_⟩
    · unfold makeAnEpicNFT
      rw [if_neg (by simp [hen]), if_neg (by omega), if_pos hv]
    · unfold mintIpfsNFT
      rw [if_neg (by simp [hen]), if_neg (by omega), if_pos hv]
  · intro hen hsup hpay huri
    unfold makeAnEpicNFT
    rw [if_neg (by simp [hen]), if_neg (by omega), if_neg (by omega),
      if_pos (by simp [huri])]
  · intro hen hsup hpay hn
    unfold mintIpfsNFT
    rw [if_neg (by simp [hen]), if_neg (by omega), if_neg (by omega),
      if_pos (by simp [hn])]
  · intro hen hsup hpay hn hd
    unfold mintIpfsNFT
    rw [if_neg (by simp [hen]), if_neg (by omega), if_neg (by omega),
      if_neg (by simpa using hn), if_pos (by simp [hd])]
  · intro hen hsup hpay hn hd hh
    unfold mintIpfsNFT
    rw [if_neg (by simp [hen]), if_neg (by omega), if_neg (by omega),
      if_neg (by simpa using hn), if_neg (by simpa using hd), if_pos (by simp [hh])]
  · intro e he
    simp [mintCallState, he]
  · intro e he
    simp [mintCallState, he]

/-- Witness for C1: the freshly deployed contract satisfies the side
conditions, and a fee-covering call with a non-empty URI by sender 5
succeeds. -/
theorem payable_mint_precondition_complete_witness :
    ((makeAnEpicNFT (initialState 1) 5 initialMintPrice "u".data).isOk = true ↔
      ((initialState 1).mintingEnabled = true
        ∧ (initialState 1).tokenIdCounter ≤ MAX_SUPPLY
        ∧ (initialState 1).mintPrice ≤ initialMintPrice ∧ "u".data ≠ [])) :=
  (payable_mint_precondition_complete (initialState 1) 5 initialMintPrice 99
    "u".data "A".data "B".data "QmX".data (by decide) (Reachable.deployed 1)).1

end NFTMaker
